import Mathlib

/-!
Verification of the token-based authentication subsystem in `api/v3/auth.go`
(package v3): token issuance (`signAPIToken`, `signChallengeToken`), the
request auth gate (`validate` and the interceptors built by
`newAuthInterceptors`), the challenge-token redemption endpoint
(`VerificationHandler`), and `validateEmailFormat`.

Modelling conventions:
- Machine time is modelled as `Int` seconds since epoch (`time.Now().Unix()`);
  every call of `time.Now()` in the source becomes an explicit parameter.
- JWT signatures are modelled with a perfect-crypto abstraction: an HMAC
  signature is the triple (algorithm, key, signed claims), and verification
  succeeds exactly when the recomputed triple matches.  An RSA-family method
  verified against a byte-slice key always fails, as in jwt-go
  (`ErrInvalidKeyType`).
- Serialization of tokens to compact strings is abstracted by a `decode`
  parameter (`String -> Option Token`); `none` models a structurally
  malformed token string (`jwt.ParseUnverified` failure).
- Go string primitives used by the source (`strings.Split`,
  `strings.ContainsRune`, `strings.HasSuffix`) are reimplemented structurally
  over `List Char` so that all definitions are kernel-executable.
- The claim-validation logic of `jwt.MapClaims.Valid` (dgrijalva/jwt-go v3)
  is translated faithfully: only a *numeric* `exp` / `iat` / `nbf` entry is
  checked; entries of any other JSON type (and absent entries) are skipped.
-/

-- ## Go string primitives (strings.Split, ContainsRune, HasSuffix)

/-- Removes `sep` from the front of `l` when `l` starts with `sep`
(substring match at position 0), returning the remainder. -/
def stripSep : List Char → List Char → Option (List Char)
  | [], l => some l
  | _ :: _, [] => none
  | c :: cs, x :: xs => if c = x then stripSep cs xs else none

/-- Fuel-driven worker for `goSplit`.  With `fuel ≥ l.length` and a nonempty
separator it computes exactly Go's `strings.Split` on `l`;
`acc` holds the current field in reverse. -/
def goSplitAux (sep : List Char) : Nat → List Char → List Char → List (List Char)
  | _, [], acc => [acc.reverse]
  | 0, rest, acc => [acc.reverse ++ rest]
  | fuel + 1, x :: xs, acc =>
    match stripSep sep (x :: xs) with
    | some rest => acc.reverse :: goSplitAux sep fuel rest []
    | none => goSplitAux sep fuel xs (x :: acc)

/-- Go `strings.Split(s, sep)` for a nonempty separator: all substrings of
`s` between non-overlapping occurrences of `sep`, scanned left to right. -/
def goSplit (s sep : String) : List String :=
  (goSplitAux sep.toList s.toList.length s.toList []).map List.asString

/-- Go `strings.ContainsRune(s, c)`. -/
def goContainsChar (s : String) (c : Char) : Bool :=
  s.toList.contains c

/-- Go `strings.HasSuffix(s, suffix)`. -/
def goHasSuffix (s suffix : String) : Bool :=
  suffix.toList.isSuffixOf s.toList

-- ## Data model

/-- JWT signing methods relevant to the source: the HMAC family used by the
service configuration plus one non-HMAC method (`jwt.SigningMethodRS256`) to
exercise the type check in `VerificationHandler`'s key function. -/
inductive Alg
  | hs256
  | hs384
  | hs512
  | rs256
deriving DecidableEq, Repr

/-- Whether the method is of Go type `*jwt.SigningMethodHMAC`. -/
def Alg.isHMAC : Alg → Bool
  | .rs256 => false
  | _ => true

/-- A JSON claim value as it appears in `jwt.MapClaims` after parsing:
the source only ever stores strings and (whole-second) numbers. -/
inductive CVal
  | s (v : String)
  | n (v : Int)
deriving DecidableEq, Repr

/-- Decoded `jwt.MapClaims`: an association list with unique keys
(Go `map[string]interface\x7b\x7d` restricted to the claim values used). -/
abbrev Claims := List (String × CVal)

-- Claim-key constants from the source (`const` block at the top of auth.go).
def claimUser : String := "id"
def claimChallenge : String := "challenge"
def claimOrigAt : String := "orig_iat"
def claimExpiry : String := "exp"

/-- Perfect-crypto model of an HMAC signature: the data it was computed
from.  Verification recomputes the triple and compares. -/
structure Sig where
  alg : Alg
  key : String
  payload : Claims
deriving DecidableEq, Repr

/-- A structurally well-formed compact JWT after `jwt.ParseUnverified`:
header algorithm, claim set, and signature part. -/
structure Token where
  alg : Alg
  claims : Claims
  sig : Sig
deriving DecidableEq, Repr

/-- Signature verification as performed by `Parser.Parse`: the method named
in the token HEADER verifies the signature against the key returned by the
key function.  HMAC methods succeed iff the signature is the HMAC of the
signed payload under that key and header method; RSA methods always fail
against a `[]byte` key (`jwt.ErrInvalidKeyType`). -/
def verifySignature (tok : Token) (key : String) : Bool :=
  if tok.alg.isHMAC then decide (tok.sig = Sig.mk tok.alg key tok.claims)
  else false

/-- JWTConfig from the source: signing key, realm, session-token timeout
(whole seconds), signing algorithm. -/
structure JWTConfig where
  key : String
  realm : String
  timeout : Int
  signingAlgo : Alg
deriving DecidableEq, Repr

/-- Modelled from the spec: the external identity store's user record, at
the interface consumed by auth.go (`models.User` lives in the external
RTradeLtd/database repository).  Only the fields read by this file are
modelled: the user name and the currently-active one-time email
verification value (`EmailVerificationToken`); `none` means the store no
longer reports any value as active (after consumption). -/
structure User where
  userName : String
  emailVerificationToken : Option String
deriving DecidableEq, Repr

/-- Modelled from the spec: the identity store as a list of user records. -/
abbrev Store := List User

/-- Modelled from the spec: `userManager.FindByUserName` - lookup of a user
record by user name. -/
def findByUserName (st : Store) (name : String) : Option User :=
  st.find? (fun u => u.userName == name)

/-- Modelled from the spec: `userManager.ValidateEmailVerificationToken` -
the consume operation of the challenge flow.  It succeeds when the given
challenge equals the user's currently-active one-time verification value and
atomically invalidates that value (the store no longer reports it as
active); it fails otherwise.  Returns the updated store on success. -/
def validateEmailVerificationToken (st : Store) (name challenge : String) :
    Option Store :=
  match findByUserName st name with
  | some u =>
    if u.emailVerificationToken = some challenge then
      some (st.map (fun v =>
        if v.userName = name then { v with emailVerificationToken := none } else v))
    else none
  | none => none

/-- Per-call gRPC metadata (`metadata.MD`): association of header names to
value lists. -/
abbrev CallMeta := List (String × List String)

/-- The call's execution context: incoming metadata plus the claims and user
attached by `ctxSetClaims` / `ctxSetUser` after successful validation. -/
structure Ctx where
  meta : Option CallMeta
  claims : Option Claims
  user : Option User
deriving DecidableEq, Repr

/-- Attaches validated claims to the context (`ctxSetClaims`). -/
def ctxSetClaims (c : Ctx) (cl : Claims) : Ctx :=
  { c with claims := some cl }

/-- Attaches the resolved user to the context (`ctxSetUser`). -/
def ctxSetUser (c : Ctx) (u : User) : Ctx :=
  { c with user := some u }

-- ## jwt-go claim validation (MapClaims.Valid, dgrijalva/jwt-go v3.2.0)

/-- jwt-go `verifyExp`: a zero expiry is treated as absent; otherwise the
current time must not be past the expiry. -/
def verifyExp (exp cmp : Int) (required : Bool) : Bool :=
  if exp = 0 then !required else decide (cmp ≤ exp)

/-- jwt-go `verifyIat`. -/
def verifyIat (iat cmp : Int) (required : Bool) : Bool :=
  if iat = 0 then !required else decide (cmp ≥ iat)

/-- jwt-go `verifyNbf`. -/
def verifyNbf (nbf cmp : Int) (required : Bool) : Bool :=
  if nbf = 0 then !required else decide (cmp ≥ nbf)

/-- jwt-go `MapClaims.VerifyExpiresAt`: only a numeric `exp` entry is
checked; a string-typed or absent `exp` falls through to `!required`. -/
def verifyExpiresAt (m : Claims) (cmp : Int) (required : Bool) : Bool :=
  match m.lookup claimExpiry with
  | some (.n v) => verifyExp v cmp required
  | _ => !required

/-- jwt-go `MapClaims.VerifyIssuedAt` on the standard `iat` key (the source
stores its issue time under `orig_iat`, which this check never sees). -/
def verifyIssuedAt (m : Claims) (cmp : Int) (required : Bool) : Bool :=
  match m.lookup "iat" with
  | some (.n v) => verifyIat v cmp required
  | _ => !required

/-- jwt-go `MapClaims.VerifyNotBefore` on the standard `nbf` key. -/
def verifyNotBefore (m : Claims) (cmp : Int) (required : Bool) : Bool :=
  match m.lookup "nbf" with
  | some (.n v) => verifyNbf v cmp required
  | _ => !required

/-- jwt-go `MapClaims.Valid` with `TimeFunc` returning `now`: the
conjunction of the three non-required standard checks. -/
def mapClaimsValid (m : Claims) (now : Int) : Bool :=
  verifyExpiresAt m now false && verifyIssuedAt m now false &&
    verifyNotBefore m now false

-- ## Token issuance (signAPIToken, signChallengeToken)

/-- Result of `signAPIToken`: the expiry it reports and the signed token. -/
structure APIToken where
  expire : Int
  token : Token
deriving DecidableEq, Repr

/-- The source's `signAPIToken`, which calls `time.Now()` twice: `tExpire`
is the clock value read on the `expire := time.Now().Add(Timeout).Unix()`
line and `tIssued` the one read for the `orig_iat` claim two lines later.
Signing uses the configured algorithm and key; the error return of
`SignedString` (impossible for an HMAC method with a byte key) is not
modelled. -/
def signAPIToken (cfg : JWTConfig) (user : String) (tExpire tIssued : Int) :
    APIToken :=
  let expire := tExpire + cfg.timeout
  let claims : Claims :=
    [(claimUser, .s user), (claimExpiry, .n expire), (claimOrigAt, .n tIssued)]
  ⟨expire, ⟨cfg.signingAlgo, claims, ⟨cfg.signingAlgo, cfg.key, claims⟩⟩⟩

/-- Models the Go expression `time.Now().Add(time.Hour * 24).UTC().String()`
at clock value `t + 86400`: a human-readable date string.  Its exact shape
is irrelevant downstream; only its string JSON type matters, because
`MapClaims.Valid` skips non-numeric `exp` entries. -/
def goTimeString (t : Int) : String :=
  "date " ++ toString t ++ " UTC"

/-- The source's `signChallengeToken`, again with two `time.Now()` reads:
`tExpire` for the expiry claim and `tIssued` for `orig_iat`.  Note the
expiry claim is the formatted date STRING of `tExpire + 24h`, not a number,
unlike `signAPIToken`. -/
def signChallengeToken (cfg : JWTConfig) (user challenge : String)
    (tExpire tIssued : Int) : Token :=
  let claims : Claims :=
    [(claimUser, .s user), (claimChallenge, .s challenge),
     (claimExpiry, .s (goTimeString (tExpire + 86400))),
     (claimOrigAt, .n tIssued)]
  ⟨cfg.signingAlgo, claims, ⟨cfg.signingAlgo, cfg.key, claims⟩⟩

-- ## The request auth gate (validate)

deriving instance DecidableEq for Except

/-- gRPC status codes used by this file. -/
inductive GrpcCode
  | unauthenticated
  | invalidArgument
  | notFound
  | internal
deriving DecidableEq, Repr

/-- Error raised inside the key function passed to `jwt.Parse` by
`validate` (each constructor is one `return nil, grpc.Errorf(...)` site). -/
inductive KfErr
  | invalidClaims
  | invalidUser
  | userNotFound
deriving DecidableEq, Repr

/-- Failure of the `jwt.Parse` call in `validate`: a structurally malformed
token string, a key-function error, or claim/signature validation failure
(`notValid` records which of the two parser checks succeeded). -/
inductive ParseErr
  | malformed
  | keyfunc (e : KfErr)
  | notValid (claimsOK sigOK : Bool)
deriving DecidableEq, Repr

/-- The distinct error exits of `validate`, in source order. -/
inductive VErr
  | missingMetadata
  | noKey
  | invalidKeyFormat
  | parseFailed (e : ParseErr)
deriving DecidableEq, Repr

/-- The gRPC code attached to each `validate` error: every exit in the
source is `grpc.Errorf(codes.Unauthenticated, ...)`. -/
def VErr.gcode : VErr → GrpcCode
  | .missingMetadata => .unauthenticated
  | .noKey => .unauthenticated
  | .invalidKeyFormat => .unauthenticated
  | .parseFailed _ => .unauthenticated

/-- Output of `validate`: the returned context or error, instrumented with
the list of arguments `validate` passed to `users.FindByUserName` (used to
state when the identity-store lookup runs). -/
structure VOut where
  result : Except VErr Ctx
  lookups : List String
deriving DecidableEq, Repr

/-- The source's `validate(ctx)`.  Steps, in source order: read incoming
metadata; read the `authorization` values; split the first value on
`"Bearer "` and reject if fewer than two fragments, else take fragment 1 as
the token string; then `jwt.Parse` with a key function that (in order)
checks `claims.Valid()`, extracts a non-empty string `id` claim, and looks
the user up with `FindByUserName`, returning the configured key; the parser
then validates the claims and verifies the signature with the HEADER's
method (no comparison against the configured algorithm anywhere).  On
success the context is extended with the claims and the resolved user.
The source's final `!t.Valid` branch is unreachable (jwt-go returns a nil
error only for valid tokens) and has no counterpart here. -/
def validate (decode : String → Option Token) (st : Store) (cfg : JWTConfig)
    (now : Int) (ctx : Ctx) : VOut :=
  match ctx.meta with
  | none => ⟨.error .missingMetadata, []⟩
  | some meta =>
    match meta.lookup "authorization" with
    | none => ⟨.error .noKey, []⟩
    | some [] => ⟨.error .noKey, []⟩
    | some (bearerString :: _) =>
      match (goSplit bearerString "Bearer ").get? 1 with
      | none => ⟨.error .invalidKeyFormat, []⟩
      | some tokenString =>
        match decode tokenString with
        | none => ⟨.error (.parseFailed .malformed), []⟩
        | some tok =>
          if mapClaimsValid tok.claims now = false then
            ⟨.error (.parseFailed (.keyfunc .invalidClaims)), []⟩
          else
            match tok.claims.lookup claimUser with
            | some (.s userID) =>
              if userID = "" then
                ⟨.error (.parseFailed (.keyfunc .invalidUser)), []⟩
              else
                (match findByUserName st userID with
                 | none =>
                   ⟨.error (.parseFailed (.keyfunc .userNotFound)), [userID]⟩
                 | some user =>
                   let claimsOK := mapClaimsValid tok.claims now
                   let sigOK := verifySignature tok cfg.key
                   if claimsOK && sigOK then
                     ⟨.ok (ctxSetUser (ctxSetClaims ctx tok.claims) user),
                      [userID]⟩
                   else
                     ⟨.error (.parseFailed (.notValid claimsOK sigOK)),
                      [userID]⟩)
            | _ => ⟨.error (.parseFailed (.keyfunc .invalidUser)), []⟩

-- ## The interceptors (newAuthInterceptors)

/-- Output of the unary interceptor, instrumented with the contexts the
handler was invoked with and whether `validate` ran. -/
structure UnaryOut (R : Type) where
  result : Except VErr R
  handlerCalls : List Ctx
  validateRan : Bool
deriving DecidableEq, Repr

/-- The unary interceptor built by `newAuthInterceptors(exceptions...)`.
The exclusion map is built by inserting `true` for every exception; a
method is authenticated exactly when `!v && !found` for its map lookup.
On validation failure the handler is never invoked; on success it runs
with the enriched context; for an excluded method it runs with the
original context. -/
def unaryInterceptor {Req R : Type} (exceptions : List String)
    (decode : String → Option Token) (st : Store) (cfg : JWTConfig)
    (now : Int) (method : String) (ctx : Ctx) (handler : Ctx → Req → R)
    (req : Req) : UnaryOut R :=
  let exclude : List (String × Bool) := exceptions.map (fun e => (e, true))
  let v := ((exclude.lookup method).getD false)
  let found := (exclude.lookup method).isSome
  if !v && !found then
    match (validate decode st cfg now ctx).result with
    | .error err => ⟨.error err, [], true⟩
    | .ok ctx2 => ⟨.ok (handler ctx2 req), [ctx2], true⟩
  else ⟨.ok (handler ctx req), [ctx], false⟩

/-- A server stream, reduced to the context it carries; the
`grpc_middleware.WrapServerStream` decorator becomes replacement of that
context. -/
structure SrvStream where
  ctx : Ctx
deriving DecidableEq, Repr

/-- Output of the stream interceptor, instrumented like `UnaryOut`. -/
structure StreamOut (R : Type) where
  result : Except VErr R
  handlerCalls : List SrvStream
  validateRan : Bool
deriving DecidableEq, Repr

/-- The stream interceptor built by `newAuthInterceptors(exceptions...)`:
same gating as the unary one; on success the handler receives the stream
wrapped with the enriched context, for an excluded method the original
stream. -/
def streamInterceptor {R : Type} (exceptions : List String)
    (decode : String → Option Token) (st : Store) (cfg : JWTConfig)
    (now : Int) (method : String) (stream : SrvStream)
    (handler : SrvStream → R) : StreamOut R :=
  let exclude : List (String × Bool) := exceptions.map (fun e => (e, true))
  let v := ((exclude.lookup method).getD false)
  let found := (exclude.lookup method).isSome
  if !v && !found then
    match (validate decode st cfg now stream.ctx).result with
    | .error err => ⟨.error err, [], true⟩
    | .ok ctx2 =>
      let wrapped : SrvStream := ⟨ctx2⟩
      ⟨.ok (handler wrapped), [wrapped], true⟩
  else ⟨.ok (handler stream), [stream], false⟩

-- ## The verification endpoint (VerificationHandler)

/-- The structured HTTP responses written through `res.R` by
`VerificationHandler`, with their message strings. -/
inductive HTTPRes
  | badRequest (msg : String)
  | unauthorized (msg : String)
  | notFoundRes (msg : String)
  | internalServer (msg : String)
  | okMsg (msg : String)
deriving DecidableEq, Repr

/-- The source's `VerificationHandler` on query parameters `user` and
`token`, returning the response and the (possibly updated) identity store.
Steps, in source order: reject empty parameters; `jwt.Parse` with a key
function that requires an HMAC method EQUAL to the configured algorithm
(the parser then validates claims and verifies the signature, any failure
becoming the `invalid token` unauthorized response); require a string `id`
claim equal to `user`; re-check `claims.Valid()`; look the user up; require
the string `challenge` claim to equal the user's currently-active
verification value; consume the value via
`ValidateEmailVerificationToken`. -/
def verificationHandler (decode : String → Option Token) (st : Store)
    (cfg : JWTConfig) (now : Int) (user tokenStr : String) :
    HTTPRes × Store :=
  if user = "" ∨ tokenStr = "" then
    (.badRequest "parameters user, token cannot be empty", st)
  else
    match decode tokenStr with
    | none => (.unauthorized "invalid token", st)
    | some tok =>
      if tok.alg.isHMAC = false then (.unauthorized "invalid token", st)
      else if tok.alg ≠ cfg.signingAlgo then (.unauthorized "invalid token", st)
      else
        let claimsOK := mapClaimsValid tok.claims now
        let sigOK := verifySignature tok cfg.key
        if (claimsOK && sigOK) = false then (.unauthorized "invalid token", st)
        else
          match tok.claims.lookup claimUser with
          | some (.s v) =>
            if v ≠ user then
              (.badRequest "user in token does not match request", st)
            else if mapClaimsValid tok.claims now = false then
              (.badRequest "invalid claims", st)
            else
              (match findByUserName st user with
               | none => (.notFoundRes "user not found", st)
               | some u =>
                 match tok.claims.lookup claimChallenge with
                 | some (.s challenge) =>
                   if u.emailVerificationToken ≠ some challenge then
                     (.badRequest "challenge in token is incorrect", st)
                   else
                     (match validateEmailVerificationToken st user challenge with
                      | none => (.internalServer "unable to validate user", st)
                      | some st2 => (.okMsg "user verified", st2))
                 | _ => (.badRequest "challenge in token is incorrect", st))
          | _ => (.badRequest "user in token does not match request", st)

-- ## Email format validation (validateEmailFormat)

/-- The distinct rejections of `validateEmailFormat`, one per error return
in source order. -/
inductive EmailErr
  | malformedAddress
  | catchAllNotAllowed
  | trailingPeriod
  | unresolvableDomain
deriving DecidableEq, Repr

/-- The source's `validateEmailFormat`, with the blocking `net.LookupIP`
call abstracted as `lookupIP` (`none` models a lookup error).  Note the
first check is `strings.ContainsRune(email, '@')` - at LEAST one `@` - and
the account/host parts are fragments 0 and 1 of `strings.Split(email, "@")`. -/
def validateEmailFormat (lookupIP : String → Option (List String))
    (email : String) : Option EmailErr :=
  if goContainsChar email '@' = false then some .malformedAddress
  else
    let parts := goSplit email "@"
    let account := parts.getD 0 ""
    let host := parts.getD 1 ""
    if goContainsChar account '+' then some .catchAllNotAllowed
    else if goHasSuffix account "." then some .trailingPeriod
    else
      match lookupIP host with
      | none => some .unresolvableDomain
      | some [] => some .unresolvableDomain
      | some (_ :: _) => none

-- ## Small helpers for statements

/-- Whether an `Except` result is a success. -/
def exceptIsOk {ε α : Type} : Except ε α → Bool
  | .ok _ => true
  | .error _ => false

/-- Whether an optional claim value is numeric. -/
def claimIsNumeric : Option CVal → Bool
  | some (.n _) => true
  | _ => false

-- ## Concrete fixtures (used by witnesses and counterexamples)

/-- A concrete signing configuration: key `secret`, HS512, 3600s timeout. -/
def cfg0 : JWTConfig := ⟨"secret", "temporal", 3600, .hs512⟩

/-- A concrete user whose active one-time verification value is `chal`. -/
def alice : User := ⟨"alice", some "chal"⟩

/-- A concrete identity store containing only `alice`. -/
def store0 : Store := [alice]

/-- Claims of a session-style token for `alice` expiring at 2000. -/
def claimsHS : Claims :=
  [(claimUser, .s "alice"), (claimExpiry, .n 2000), (claimOrigAt, .n 0)]

/-- A token whose header names HS256 (not the configured HS512) and whose
signature is the HS256 HMAC of its claims under the CONFIGURED key. -/
def tokHS256 : Token := ⟨.hs256, claimsHS, ⟨.hs256, "secret", claimsHS⟩⟩

/-- Serialization oracle mapping the string `t1` to `tokHS256`. -/
def decode1 : String → Option Token :=
  fun s => if s = "t1" then some tokHS256 else none

/-- A call context presenting `t1` as a bearer credential. -/
def ctx1 : Ctx := ⟨some [("authorization", ["Bearer t1"])], none, none⟩

/-- A call context whose authorization value `xBearer t1` is not of the
form `Bearer <token>` (it does not start with `Bearer `). -/
def ctx6 : Ctx := ⟨some [("authorization", ["xBearer t1"])], none, none⟩

/-- A call context with no metadata at all. -/
def ctxNoMeta : Ctx := ⟨none, none, none⟩

/-- A call context whose metadata has no `authorization` entry. -/
def ctxNoAuth : Ctx := ⟨some [("x-other", ["v"])], none, none⟩

/-- A call context whose authorization value contains no `Bearer `
fragment at all. -/
def ctxBadForm : Ctx := ⟨some [("authorization", ["Basic x"])], none, none⟩

/-- The challenge token for `alice` with value `chal`, both clocks at 0. -/
def tokC : Token := signChallengeToken cfg0 "alice" "chal" 0 0

/-- Serialization oracle mapping the string `tc` to `tokC`. -/
def decodeC : String → Option Token :=
  fun s => if s = "tc" then some tokC else none

/-- A token with valid claims for `alice` whose signature was produced with
the WRONG key, so it does not verify under `cfg0`. -/
def tokBad : Token := ⟨.hs512, claimsHS, ⟨.hs512, "WRONG", claimsHS⟩⟩

/-- Serialization oracle mapping the string `tb` to `tokBad`. -/
def decodeB : String → Option Token :=
  fun s => if s = "tb" then some tokBad else none

/-- A call context presenting `tb` as a bearer credential. -/
def ctxB : Ctx := ⟨some [("authorization", ["Bearer tb"])], none, none⟩

/-- Serialization oracle mapping the string `t4` to the session token
signed for `alice` at time 50. -/
def decode4 : String → Option Token :=
  fun s => if s = "t4" then some (signAPIToken cfg0 "alice" 50 50).token else none

/-- A call context presenting `t4` as a bearer credential. -/
def ctx4 : Ctx := ⟨some [("authorization", ["Bearer t4"])], none, none⟩

/-- An already-expired session token: both clocks at -7200, so its numeric
expiry -3600 lies in the past of the validation times used below. -/
def tokExpired : Token := (signAPIToken cfg0 "alice" (-7200) (-7200)).token

/-- Serialization oracle mapping the string `te` to `tokExpired`. -/
def decodeE : String → Option Token :=
  fun s => if s = "te" then some tokExpired else none

/-- A call context presenting `te` as a bearer credential. -/
def ctxE : Ctx := ⟨some [("authorization", ["Bearer te"])], none, none⟩

/-- A DNS oracle that resolves exactly the host `b`. -/
def resolver0 : String → Option (List String) :=
  fun h => if h = "b" then some ["1.2.3.4"] else none

-- ## Helper lemmas

/-- Membership in the exception list yields a `true` entry in the exclusion
map built by `newAuthInterceptors`. -/
theorem lookup_excludeMap_of_mem (exceptions : List String) (method : String)
    (h : method ∈ exceptions) :
    (exceptions.map (fun e => (e, true))).lookup method = some true := by
  induction exceptions with
  | nil => cases h
  | cons e es ih =>
    cases hbe : (method == e) with
    | true => simp [List.lookup, hbe]
    | false =>
      have hne : method ≠ e := by
        intro hh
        rw [hh] at hbe
        simp at hbe
      have hmem : method ∈ es := by
        rcases List.mem_cons.mp h with h1 | h2
        · exact absurd h1 hne
        · exact h2
      simp [List.lookup, hbe, ih hmem]

/-- Absence from the exception list yields no entry in the exclusion map. -/
theorem lookup_excludeMap_of_not_mem (exceptions : List String) (method : String)
    (h : method ∉ exceptions) :
    (exceptions.map (fun e => (e, true))).lookup method = none := by
  induction exceptions with
  | nil => rfl
  | cons e es ih =>
    cases hbe : (method == e) with
    | true =>
      exact absurd (List.mem_cons.mpr (Or.inl (by simpa using hbe))) h
    | false =>
      have hmem : method ∉ es := fun hh => h (List.mem_cons.mpr (Or.inr hh))
      simp [List.lookup, hbe, ih hmem]

/-- Validity of the claim set built by `signAPIToken`, provided the current
time is not past the expiry. -/
theorem apiClaimsValid (u : String) (e t now : Int) (h : now ≤ e) :
    mapClaimsValid
      [(claimUser, .s u), (claimExpiry, .n e), (claimOrigAt, .n t)] now = true := by
  have hexp : List.lookup claimExpiry
      [(claimUser, CVal.s u), (claimExpiry, CVal.n e), (claimOrigAt, CVal.n t)]
        = some (CVal.n e) := rfl
  have hiat : List.lookup "iat"
      [(claimUser, CVal.s u), (claimExpiry, CVal.n e), (claimOrigAt, CVal.n t)]
        = none := rfl
  have hnbf : List.lookup "nbf"
      [(claimUser, CVal.s u), (claimExpiry, CVal.n e), (claimOrigAt, CVal.n t)]
        = none := rfl
  simp only [mapClaimsValid, verifyExpiresAt, verifyIssuedAt, verifyNotBefore,
    hexp, hiat, hnbf, verifyExp]
  split <;> simp [h]

/-- Success path of `validate`: with a well-formed bearer header whose token
decodes, carries valid claims and a known non-empty user id, and whose
signature is the header-method HMAC of its claims under the configured key,
`validate` returns the enriched context.  No relation between the header
method and the configured method is required. -/
theorem validate_ok (decode : String → Option Token) (st : Store)
    (cfg : JWTConfig) (now : Int) (ctx : Ctx) (m : CallMeta) (bstr : String)
    (rest : List String) (s : String) (tok : Token) (u0 : String) (u : User)
    (hmeta : ctx.meta = some m)
    (hauth : m.lookup "authorization" = some (bstr :: rest))
    (hsplit : (goSplit bstr "Bearer ").get? 1 = some s)
    (hdecode : decode s = some tok)
    (hclaims : mapClaimsValid tok.claims now = true)
    (hid : tok.claims.lookup claimUser = some (.s u0))
    (hu0 : ¬ u0 = "")
    (hfind : findByUserName st u0 = some u)
    (hhmac : tok.alg.isHMAC = true)
    (hsig : tok.sig = Sig.mk tok.alg cfg.key tok.claims) :
    validate decode st cfg now ctx =
      ⟨.ok (ctxSetUser (ctxSetClaims ctx tok.claims) u), [u0]⟩ := by
  simp only [validate, hmeta, hauth, hsplit, hdecode, hclaims, hid, hfind]
  simp [hu0, verifySignature, hhmac, hsig]

/-- Validity of the claim set built by `signChallengeToken`: the string-typed
expiry entry is skipped by the jwt-go checks, so these claims are valid at
EVERY time. -/
theorem challengeClaimsValid (u c x : String) (t now : Int) :
    mapClaimsValid [(claimUser, .s u), (claimChallenge, .s c),
      (claimExpiry, .s x), (claimOrigAt, .n t)] now = true := by
  have hexp : List.lookup claimExpiry
      [(claimUser, CVal.s u), (claimChallenge, CVal.s c),
       (claimExpiry, CVal.s x), (claimOrigAt, CVal.n t)] = some (CVal.s x) := rfl
  have hiat : List.lookup "iat"
      [(claimUser, CVal.s u), (claimChallenge, CVal.s c),
       (claimExpiry, CVal.s x), (claimOrigAt, CVal.n t)] = none := rfl
  have hnbf : List.lookup "nbf"
      [(claimUser, CVal.s u), (claimChallenge, CVal.s c),
       (claimExpiry, CVal.s x), (claimOrigAt, CVal.n t)] = none := rfl
  simp [mapClaimsValid, verifyExpiresAt, verifyIssuedAt, verifyNotBefore,
    hexp, hiat, hnbf]

/-- Consuming a verification value only clears that user's active value:
the user remains findable, with no active value. -/
theorem findByUserName_map_consume (st : Store) (name : String) (u : User)
    (h : findByUserName st name = some u) :
    findByUserName
      (st.map (fun v =>
        if v.userName = name then { v with emailVerificationToken := none } else v))
      name = some { u with emailVerificationToken := none } := by
  induction st with
  | nil => simp [findByUserName] at h
  | cons a as ih =>
    by_cases ha : a.userName = name
    · have hpa : (a.userName == name) = true := by simp [ha]
      have hau : a = u := by
        simp only [findByUserName, List.find?, hpa] at h
        exact Option.some.inj h
      subst hau
      simp only [List.map_cons, findByUserName, List.find?, if_pos ha]
      simp [hpa]
    · have hpa : (a.userName == name) = false := by simp [ha]
      have h' : findByUserName as name = some u := by
        simp only [findByUserName, List.find?, hpa] at h
        exact h
      simp only [List.map_cons, findByUserName, List.find?, if_neg ha, hpa]
      exact ih h'
/-- C7: exempt methods bypass authentication entirely. -/
theorem C7_exempt_method_bypasses_gate {Req R S : Type} (exceptions : List String)
    (decode : String → Option Token) (st : Store) (cfg : JWTConfig) (now : Int)
    (method : String) (ctx : Ctx) (handler : Ctx → Req → R) (req : Req)
    (stream : SrvStream) (shandler : SrvStream → S)
    (hmem : method ∈ exceptions) :
    unaryInterceptor exceptions decode st cfg now method ctx handler req =
      ⟨.ok (handler ctx req), [ctx], false⟩
    ∧ streamInterceptor exceptions decode st cfg now method stream shandler =
      ⟨.ok (shandler stream), [stream], false⟩ := by
  have hl := lookup_excludeMap_of_mem exceptions method hmem
  constructor
  · simp [unaryInterceptor, hl]
  · simp [streamInterceptor, hl]

/-- C7 witness at concrete inputs. -/
theorem C7_witness :
    unaryInterceptor ["/auth.TemporalAuth/Register"] decode1 store0 cfg0 100
        "/auth.TemporalAuth/Register" ctxNoAuth (fun c (_ : Nat) => c) 0 =
      ⟨.ok ctxNoAuth, [ctxNoAuth], false⟩
    ∧ streamInterceptor ["/auth.TemporalAuth/Register"] decode1 store0 cfg0 100
        "/auth.TemporalAuth/Register" ⟨ctxNoAuth⟩ (fun s => s) =
      ⟨.ok ⟨ctxNoAuth⟩, [⟨ctxNoAuth⟩], false⟩ :=
  C7_exempt_method_bypasses_gate ["/auth.TemporalAuth/Register"] decode1 store0
    cfg0 100 "/auth.TemporalAuth/Register" ctxNoAuth (fun c (_ : Nat) => c) 0
    ⟨ctxNoAuth⟩ (fun s => s) (by decide)

/-- C1 amended: the gate performs no header-algorithm check.  Any HMAC
token whose signature verifies under the configured key with the method
named in its OWN header - in particular one whose header algorithm differs
from the configured algorithm - passes the gate, and the handler is
invoked with the enriched context. -/
theorem C1_amended_gate_ignores_header_alg {Req R : Type}
    (exceptions : List String) (decode : String → Option Token) (st : Store)
    (cfg : JWTConfig) (now : Int) (method : String) (ctx : Ctx)
    (handler : Ctx → Req → R) (req : Req) (m : CallMeta) (bstr : String)
    (rest : List String) (s : String) (tok : Token) (u0 : String) (u : User)
    (hexempt : method ∉ exceptions)
    (_halg : ¬ tok.alg = cfg.signingAlgo)
    (hhmac : tok.alg.isHMAC = true)
    (hsig : tok.sig = Sig.mk tok.alg cfg.key tok.claims)
    (hmeta : ctx.meta = some m)
    (hauth : m.lookup "authorization" = some (bstr :: rest))
    (hsplit : (goSplit bstr "Bearer ").get? 1 = some s)
    (hdecode : decode s = some tok)
    (hclaims : mapClaimsValid tok.claims now = true)
    (hid : tok.claims.lookup claimUser = some (.s u0))
    (hu0 : ¬ u0 = "")
    (hfind : findByUserName st u0 = some u) :
    unaryInterceptor exceptions decode st cfg now method ctx handler req =
      ⟨.ok (handler (ctxSetUser (ctxSetClaims ctx tok.claims) u) req),
       [ctxSetUser (ctxSetClaims ctx tok.claims) u], true⟩ := by
  have hl := lookup_excludeMap_of_not_mem exceptions method hexempt
  have hv := validate_ok decode st cfg now ctx m bstr rest s tok u0 u hmeta
    hauth hsplit hdecode hclaims hid hu0 hfind hhmac hsig
  simp [unaryInterceptor, hl, hv]

/-- C1 counterexample: a token claiming HS256 in its header, signed with
the HS256 HMAC of the CONFIGURED (HS512) key, is not rejected by the gate:
validation succeeds and the handler is invoked. -/
theorem C1_counterexample :
    decide (tokHS256.alg = cfg0.signingAlgo) = false
    ∧ verifySignature tokHS256 cfg0.key = true
    ∧ exceptIsOk (validate decode1 store0 cfg0 100 ctx1).result = true
    ∧ (unaryInterceptor ([] : List String) decode1 store0 cfg0 100
        "/auth.TemporalAuth/Account" ctx1 (fun c (_ : Nat) => c) 0).handlerCalls.length
      = 1 := by
  decide

/-- C1 witness for the amended statement at concrete inputs. -/
theorem C1_amended_witness :
    unaryInterceptor ([] : List String) decode1 store0 cfg0 100
        "/auth.TemporalAuth/Account" ctx1 (fun c (_ : Nat) => c) 0 =
      ⟨.ok (ctxSetUser (ctxSetClaims ctx1 claimsHS) alice),
       [ctxSetUser (ctxSetClaims ctx1 claimsHS) alice], true⟩ :=
  C1_amended_gate_ignores_header_alg ([] : List String) decode1 store0 cfg0 100
    "/auth.TemporalAuth/Account" ctx1 (fun c (_ : Nat) => c) 0
    [("authorization", ["Bearer t1"])] "Bearer t1" [] "t1" tokHS256 "alice" alice
    (by decide) (by decide) (by decide) rfl rfl rfl (by decide) rfl (by decide)
    rfl (by decide) rfl

/-- C4: validating a token freshly produced by `signAPIToken` for a known,
non-empty user succeeds and returns that user's claims. -/
theorem C4_sign_validate_roundtrip (decode : String → Option Token)
    (st : Store) (cfg : JWTConfig) (now tExpire tIssued : Int) (ctx : Ctx)
    (m : CallMeta) (bstr : String) (rest : List String) (s : String)
    (u0 : String) (u : User)
    (hhmac : cfg.signingAlgo.isHMAC = true)
    (hu0 : ¬ u0 = "")
    (hfind : findByUserName st u0 = some u)
    (hfresh : now ≤ tExpire + cfg.timeout)
    (hmeta : ctx.meta = some m)
    (hauth : m.lookup "authorization" = some (bstr :: rest))
    (hsplit : (goSplit bstr "Bearer ").get? 1 = some s)
    (hdecode : decode s = some (signAPIToken cfg u0 tExpire tIssued).token) :
    validate decode st cfg now ctx =
      ⟨.ok (ctxSetUser
        (ctxSetClaims ctx (signAPIToken cfg u0 tExpire tIssued).token.claims) u),
       [u0]⟩
    ∧ (signAPIToken cfg u0 tExpire tIssued).token.claims.lookup claimUser
        = some (.s u0) := by
  refine ⟨?_, rfl⟩
  exact validate_ok decode st cfg now ctx m bstr rest s
    (signAPIToken cfg u0 tExpire tIssued).token u0 u hmeta hauth hsplit hdecode
    (apiClaimsValid u0 (tExpire + cfg.timeout) tIssued now hfresh)
    rfl hu0 hfind hhmac rfl

/-- C4 witness at concrete inputs. -/
theorem C4_witness :
    validate decode4 store0 cfg0 50 ctx4 =
      ⟨.ok (ctxSetUser
        (ctxSetClaims ctx4 (signAPIToken cfg0 "alice" 50 50).token.claims) alice),
       ["alice"]⟩
    ∧ (signAPIToken cfg0 "alice" 50 50).token.claims.lookup claimUser
        = some (.s "alice") :=
  C4_sign_validate_roundtrip decode4 store0 cfg0 50 50 50 ctx4
    [("authorization", ["Bearer t4"])] "Bearer t4" [] "t4" "alice" alice
    (by decide) (by decide) rfl (by decide) rfl rfl (by decide) rfl

/-- C10: for a well-formed token with valid claims and a non-empty user id,
the gate's validation invokes `FindByUserName` on that id - with no
assumption whatsoever on the token's signature or header algorithm, because
the lookup runs inside the key function, before signature verification. -/
theorem C10_store_lookup_runs_inside_keyfunc (decode : String → Option Token)
    (st : Store) (cfg : JWTConfig) (now : Int) (ctx : Ctx) (m : CallMeta)
    (bstr : String) (rest : List String) (s : String) (tok : Token)
    (u0 : String)
    (hmeta : ctx.meta = some m)
    (hauth : m.lookup "authorization" = some (bstr :: rest))
    (hsplit : (goSplit bstr "Bearer ").get? 1 = some s)
    (hdecode : decode s = some tok)
    (hclaims : mapClaimsValid tok.claims now = true)
    (hid : tok.claims.lookup claimUser = some (.s u0))
    (hu0 : ¬ u0 = "") :
    (validate decode st cfg now ctx).lookups = [u0] := by
  simp only [validate, hmeta, hauth, hsplit, hdecode, hclaims, hid]
  cases hf : findByUserName st u0 with
  | none => simp [hf, hu0]
  | some user => cases hs : verifySignature tok cfg.key <;> simp [hf, hs, hu0]

/-- C10 witness: a token whose signature does NOT verify under the
configured key still causes the identity-store lookup. -/
theorem C10_witness :
    verifySignature tokBad cfg0.key = false
    ∧ exceptIsOk (validate decodeB store0 cfg0 100 ctxB).result = false
    ∧ (validate decodeB store0 cfg0 100 ctxB).lookups = ["alice"] :=
  ⟨by decide, by decide,
   C10_store_lookup_runs_inside_keyfunc decodeB store0 cfg0 100 ctxB
     [("authorization", ["Bearer tb"])] "Bearer tb" [] "tb" tokBad "alice"
     rfl rfl (by decide) rfl (by decide) rfl (by decide)⟩

/-- C6 amended: a non-exempt call is rejected with Unauthenticated before
the handler runs when the metadata is absent, when it has no
`authorization` entry, or when the first `authorization` value yields
fewer than two fragments under a split on `Bearer ` (the source's actual
form check - it accepts any value CONTAINING `Bearer ` as a substring). -/
theorem C6_amended_rejections_before_handler {Req R : Type}
    (exceptions : List String) (decode : String → Option Token) (st : Store)
    (cfg : JWTConfig) (now : Int) (method : String)
    (handler : Ctx → Req → R) (req : Req)
    (hexempt : method ∉ exceptions) :
    (∀ ctx : Ctx, ctx.meta = none →
      unaryInterceptor exceptions decode st cfg now method ctx handler req =
        ⟨.error .missingMetadata, [], true⟩
      ∧ VErr.gcode .missingMetadata = .unauthenticated)
    ∧ (∀ (ctx : Ctx) (m : CallMeta), ctx.meta = some m →
      m.lookup "authorization" = none →
      unaryInterceptor exceptions decode st cfg now method ctx handler req =
        ⟨.error .noKey, [], true⟩
      ∧ VErr.gcode .noKey = .unauthenticated)
    ∧ (∀ (ctx : Ctx) (m : CallMeta) (bstr : String) (rest : List String),
      ctx.meta = some m →
      m.lookup "authorization" = some (bstr :: rest) →
      (goSplit bstr "Bearer ").get? 1 = none →
      unaryInterceptor exceptions decode st cfg now method ctx handler req =
        ⟨.error .invalidKeyFormat, [], true⟩
      ∧ VErr.gcode .invalidKeyFormat = .unauthenticated) := by
  have hl := lookup_excludeMap_of_not_mem exceptions method hexempt
  refine ⟨?_, ?_, ?_⟩
  · intro ctx hmeta
    exact ⟨by simp only [unaryInterceptor, hl, validate, hmeta]; rfl, rfl⟩
  · intro ctx m hmeta hauth
    exact ⟨by simp only [unaryInterceptor, hl, validate, hmeta, hauth]; rfl, rfl⟩
  · intro ctx m bstr rest hmeta hauth hsplit
    exact ⟨by simp only [unaryInterceptor, hl, validate, hmeta, hauth, hsplit]; rfl, rfl⟩

/-- C6 counterexample: the authorization value `xBearer t1` is not of the
`Bearer token` form (it does not even start with `Bearer `), yet the gate
does not reject the call: validation succeeds and the handler runs. -/
theorem C6_counterexample :
    stripSep ("Bearer ".toList) ("xBearer t1".toList) = none
    ∧ exceptIsOk (validate decode1 store0 cfg0 100 ctx6).result = true
    ∧ (unaryInterceptor ([] : List String) decode1 store0 cfg0 100
        "/auth.TemporalAuth/Account" ctx6 (fun c (_ : Nat) => c) 0).handlerCalls.length
      = 1 := by
  decide

/-- C6 witness for the amended statement at concrete inputs. -/
theorem C6_amended_witness :
    (unaryInterceptor ([] : List String) decode1 store0 cfg0 100 "/m" ctxNoMeta
        (fun c (_ : Nat) => c) 0 = ⟨.error .missingMetadata, [], true⟩
      ∧ VErr.gcode .missingMetadata = .unauthenticated)
    ∧ (unaryInterceptor ([] : List String) decode1 store0 cfg0 100 "/m" ctxNoAuth
        (fun c (_ : Nat) => c) 0 = ⟨.error .noKey, [], true⟩
      ∧ VErr.gcode .noKey = .unauthenticated)
    ∧ (unaryInterceptor ([] : List String) decode1 store0 cfg0 100 "/m" ctxBadForm
        (fun c (_ : Nat) => c) 0 = ⟨.error .invalidKeyFormat, [], true⟩
      ∧ VErr.gcode .invalidKeyFormat = .unauthenticated) :=
  ⟨(C6_amended_rejections_before_handler ([] : List String) decode1 store0 cfg0
      100 "/m" (fun c (_ : Nat) => c) 0 (by decide)).1 ctxNoMeta rfl,
   (C6_amended_rejections_before_handler ([] : List String) decode1 store0 cfg0
      100 "/m" (fun c (_ : Nat) => c) 0 (by decide)).2.1 ctxNoAuth
      [("x-other", ["v"])] rfl (by decide),
   (C6_amended_rejections_before_handler ([] : List String) decode1 store0 cfg0
      100 "/m" (fun c (_ : Nat) => c) 0 (by decide)).2.2 ctxBadForm
      [("authorization", ["Basic x"])] "Basic x" [] rfl (by decide) (by decide)⟩

/-- C8 amended: `validateEmailFormat` rejects with MalformedAddress exactly
the addresses containing NO at-sign (not: other than exactly one); for
addresses containing an at-sign, the local part (fragment 0 of the split on
the at-sign, the text before the first at-sign) is rejected for a `+` with
CatchAllNotAllowed, then for a trailing `.` with TrailingPeriod, in that
order. -/
theorem C8_amended_email_rules (lookupIP : String → Option (List String))
    (email : String) :
    (validateEmailFormat lookupIP email = some .malformedAddress
      ↔ goContainsChar email '@' = false)
    ∧ (goContainsChar email '@' = true →
        goContainsChar ((goSplit email "@")[0]?.getD "") '+' = true →
        validateEmailFormat lookupIP email = some .catchAllNotAllowed)
    ∧ (goContainsChar email '@' = true →
        goContainsChar ((goSplit email "@")[0]?.getD "") '+' = false →
        goHasSuffix ((goSplit email "@")[0]?.getD "") "." = true →
        validateEmailFormat lookupIP email = some .trailingPeriod) := by
  refine ⟨⟨?_, ?_⟩, ?_, ?_⟩
  · intro h
    by_contra hc
    have hc' : goContainsChar email '@' = true := by
      cases hcc : goContainsChar email '@' with
      | false => exact absurd hcc hc
      | true => rfl
    simp only [validateEmailFormat, hc', Bool.true_eq_false, if_false] at h
    cases hp : goContainsChar ((goSplit email "@")[0]?.getD "") '+' with
    | true => simp [hp] at h
    | false =>
      simp only [List.getD_eq_getElem?_getD, hp, Bool.false_eq_true, if_false] at h
      cases hd : goHasSuffix ((goSplit email "@")[0]?.getD "") "." with
      | true => simp [hd] at h
      | false =>
        simp only [hd, Bool.false_eq_true, if_false] at h
        cases hip : lookupIP ((goSplit email "@")[1]?.getD "") with
        | none => simp [hip] at h
        | some l =>
          cases l with
          | nil => simp [hip] at h
          | cons a as => simp [hip] at h
  · intro h
    simp [validateEmailFormat, h]
  · intro h1 h2
    simp [validateEmailFormat, h1, h2]
  · intro h1 h2 h3
    simp [validateEmailFormat, h1, h2, h3]

/-- C8 counterexample: `a@b@c` does not contain exactly one at-sign, yet it
is not rejected with MalformedAddress - with a resolvable middle fragment
it is not rejected at all. -/
theorem C8_counterexample :
    ("a@b@c".toList.count '@') = 2
    ∧ validateEmailFormat resolver0 "a@b@c" = none
    ∧ validateEmailFormat resolver0 "a.@b@c" = some .trailingPeriod := by
  decide

/-- C8 witness for the amended statement at concrete inputs. -/
theorem C8_witness :
    validateEmailFormat resolver0 "not-an-email" = some .malformedAddress
    ∧ validateEmailFormat resolver0 "a+x@b.com" = some .catchAllNotAllowed
    ∧ validateEmailFormat resolver0 "a.@b.com" = some .trailingPeriod :=
  ⟨(C8_amended_email_rules resolver0 "not-an-email").1.mpr (by decide),
   (C8_amended_email_rules resolver0 "a+x@b.com").2.1 (by decide) (by decide),
   (C8_amended_email_rules resolver0 "a.@b.com").2.2 (by decide) (by decide)
     (by decide)⟩

/-- C9 amended: `signAPIToken` reads the clock twice; the expiry claim is
the FIRST reading plus the configured timeout while `orig_iat` is the
SECOND reading, so exp = orig_iat + timeout holds whenever the two
readings coincide (and can be off by the inter-read drift otherwise). -/
theorem C9_amended_two_clock_reads (cfg : JWTConfig) (user : String)
    (tExpire tIssued : Int) :
    (signAPIToken cfg user tExpire tIssued).expire = tExpire + cfg.timeout
    ∧ (signAPIToken cfg user tExpire tIssued).token.claims.lookup claimExpiry
        = some (.n (tExpire + cfg.timeout))
    ∧ (signAPIToken cfg user tExpire tIssued).token.claims.lookup claimOrigAt
        = some (.n tIssued)
    ∧ (tExpire = tIssued →
        (signAPIToken cfg user tExpire tIssued).token.claims.lookup claimExpiry
          = some (.n (tIssued + cfg.timeout))) := by
  refine ⟨rfl, rfl, rfl, ?_⟩
  intro h
  rw [← h]
  rfl

/-- C9 counterexample: with the first clock read at 10 and the second at 11
(the clock ticking between the two `time.Now()` calls), the issued claims
violate exp = orig_iat + timeout. -/
theorem C9_counterexample :
    (signAPIToken cfg0 "alice" 10 11).token.claims.lookup claimExpiry
      = some (.n 3610)
    ∧ (signAPIToken cfg0 "alice" 10 11).token.claims.lookup claimOrigAt
      = some (.n 11)
    ∧ decide ((3610 : Int) = 11 + cfg0.timeout) = false := by
  decide

/-- C9 witness for the amended statement at concrete inputs. -/
theorem C9_witness :
    (signAPIToken cfg0 "w" 5 5).token.claims.lookup claimExpiry
      = some (.n (5 + cfg0.timeout)) :=
  (C9_amended_two_clock_reads cfg0 "w" 5 5).2.2.2 rfl

/-- C2: the expiry claim of a challenge token is the formatted date STRING
of issuance + 24h, not a numeric seconds value; a session token's expiry
claim, by contrast, is numeric. -/
theorem C2_challenge_expiry_is_date_string :
    (signChallengeToken cfg0 "bob" "c1" 1000 1000).claims.lookup claimExpiry
      = some (.s (goTimeString (1000 + 86400)))
    ∧ claimIsNumeric
        ((signChallengeToken cfg0 "bob" "c1" 1000 1000).claims.lookup claimExpiry)
      = false
    ∧ claimIsNumeric
        ((signAPIToken cfg0 "bob" 1000 1000).token.claims.lookup claimExpiry)
      = true := by
  decide

/-- C3: a challenge token issued at time 0 (expiry one day later) is
redeemed SUCCESSFULLY at time 1000000 (more than eleven days later),
because the jwt-go claim check skips the string-typed expiry; a numeric
past expiry, by contrast, is rejected both by the gate and by the
verification endpoint. -/
theorem C3_expired_challenge_redeems :
    tokC.claims.lookup claimExpiry = some (.s (goTimeString 86400))
    ∧ decide ((86400 : Int) < 1000000) = true
    ∧ (verificationHandler decodeC store0 cfg0 1000000 "alice" "tc").1
      = .okMsg "user verified"
    ∧ tokExpired.claims.lookup claimExpiry = some (.n (-3600))
    ∧ exceptIsOk (validate decodeE store0 cfg0 100 ctxE).result = false
    ∧ (verificationHandler decodeE store0 cfg0 100 "alice" "te").1
      = .unauthorized "invalid token" := by
  decide

/-- C5: once the verification endpoint accepts a (user, token) pair, a
second redemption of the identical pair against the updated store fails
with the bad-request (MalformedRequest) response for a mismatched
challenge, because consuming the one-time value left the store with no
active value for that user. -/
theorem C5_challenge_single_use (decode : String → Option Token) (st : Store)
    (cfg : JWTConfig) (now : Int) (user tokenStr : String)
    (hfirst : (verificationHandler decode st cfg now user tokenStr).1
      = .okMsg "user verified") :
    (verificationHandler decode
        (verificationHandler decode st cfg now user tokenStr).2
        cfg now user tokenStr).1
      = .badRequest "challenge in token is incorrect" := by
  by_cases h0 : user = "" ∨ tokenStr = ""
  · simp only [verificationHandler, if_pos h0] at hfirst
    exact HTTPRes.noConfusion hfirst
  · simp only [verificationHandler, if_neg h0] at hfirst
    cases hdec : decode tokenStr with
    | none => rw [hdec] at hfirst; simp at hfirst
    | some tok =>
      rw [hdec] at hfirst
      cases hhm : tok.alg.isHMAC with
      | false => simp [hhm] at hfirst
      | true =>
        simp only [hhm] at hfirst
        by_cases halg : tok.alg = cfg.signingAlgo
        · simp only [if_neg (by simp [halg] : ¬ (tok.alg ≠ cfg.signingAlgo))] at hfirst
          cases hcs : (mapClaimsValid tok.claims now && verifySignature tok cfg.key) with
          | false => simp [hcs] at hfirst
          | true =>
            have hcv : mapClaimsValid tok.claims now = true :=
              (Bool.and_eq_true_iff.mp hcs).1
            have hsv : verifySignature tok cfg.key = true :=
              (Bool.and_eq_true_iff.mp hcs).2
            simp only [hcs] at hfirst
            cases hu : tok.claims.lookup claimUser with
            | none => simp [hu] at hfirst
            | some cv =>
              cases cv with
              | n k => simp [hu] at hfirst
              | s v =>
                rw [hu] at hfirst
                by_cases hv : v = user
                · subst hv
                  simp only [if_neg (by simp : ¬ (v ≠ v)), hcv] at hfirst
                  cases hfind : findByUserName st v with
                  | none => simp [hfind] at hfirst
                  | some u =>
                    rw [hfind] at hfirst
                    cases hch : tok.claims.lookup claimChallenge with
                    | none => simp [hch] at hfirst
                    | some cc =>
                      cases cc with
                      | n k => simp [hch] at hfirst
                      | s c =>
                        rw [hch] at hfirst
                        by_cases hcc : u.emailVerificationToken = some c
                        · have hcons : validateEmailVerificationToken st v c =
                            some (st.map (fun w =>
                              if w.userName = v then
                                { w with emailVerificationToken := none }
                              else w)) := by
                            simp [validateEmailVerificationToken, hfind, hcc]
                          have hstore :
                              (verificationHandler decode st cfg now v tokenStr).2
                                = st.map (fun w =>
                                  if w.userName = v then
                                    { w with emailVerificationToken := none }
                                  else w) := by
                            simp only [verificationHandler, if_neg h0, hdec, hhm,
                              if_neg (by simp [halg] : ¬ (tok.alg ≠ cfg.signingAlgo)),
                              hcs, hu, if_neg (by simp : ¬ (v ≠ v)), hcv, hfind,
                              hch, if_neg (by simp [hcc] :
                                ¬ (u.emailVerificationToken ≠ some c)), hcons]
                            simp [hsv]
                          have hfind2 := findByUserName_map_consume st v u hfind
                          rw [hstore]
                          simp only [verificationHandler, if_neg h0, hdec, hhm,
                            if_neg (by simp [halg] : ¬ (tok.alg ≠ cfg.signingAlgo)),
                            hcs, hu, if_neg (by simp : ¬ (v ≠ v)), hcv, hfind2, hch]
                          simp [hsv]
                        · simp [hcc] at hfirst
                · simp [hv] at hfirst
        · simp [halg] at hfirst

/-- C5 witness: the concrete challenge token for alice redeems once and
then fails with the challenge-mismatch bad request. -/
theorem C5_witness :
    (verificationHandler decodeC store0 cfg0 100 "alice" "tc").1
      = .okMsg "user verified"
    ∧ (verificationHandler decodeC
        (verificationHandler decodeC store0 cfg0 100 "alice" "tc").2
        cfg0 100 "alice" "tc").1
      = .badRequest "challenge in token is incorrect" :=
  ⟨by decide,
   C5_challenge_single_use decodeC store0 cfg0 100 "alice" "tc" (by decide)⟩
